import Mathlib

/-!
Verification of the tetris-js game core (`src/index.js`) via a shallow embedding.

The source is a browser Tetris engine built on global mutable state.  We embed
it as pure functions over an explicit `GameState` record:

* `_collisionRows` is a JS array of per-row bitmasks; reading a missing index
  yields `undefined`, which every bitwise operator coerces to 0, and the stored
  values are always 32-bit results.  We model it as a total function
  `Int → Nat` whose values are the (unsigned) 32-bit patterns.
* JS `1 << x` shifts by `ToUint32(x) & 31`, i.e. by `x mod 32`.
* Piece matrix cells are `false` or a color string; the engine tests them for
  JS truthiness (`!b`), under which the empty string is also falsy.
* Rendering (`Draw`, `DrawBlock`, `DrawGameOver`) is side-effect-free with
  respect to the game state and is omitted.
* `Math.random()` in `GenerateNewPiece` is modelled by passing the drawn
  rational `r ∈ [0,1)` (or the generated piece) as an explicit argument.
-/

/-! ## Definitions: the embedded program -/

/-- Source: `var _boardWidth = 10`. -/
def _boardWidth : Int := 10

/-- Source: `var _boardHeight = 22`. -/
def _boardHeight : Int := 22

/-- Source: `var _fullRowVal = Math.pow(2, _boardWidth)-1`, i.e. 1023. -/
def _fullRowVal : Nat := 2 ^ 10 - 1

/-- The `_collisionRows` array, as a total map from row index to bit pattern. -/
abbrev CollisionRows := Int → Nat

/-- JS shift-count semantics for `1 << x`: the count is `ToUint32(x) & 31`,
which equals `x mod 32` mathematically. -/
def jsShiftAmt (x : Int) : Nat := (x % 32).toNat

/-- Source: `function FixSquareAt(x, y) { _collisionRows[y] = _collisionRows[y] | (1 << x); }` -/
def FixSquareAt (rows : CollisionRows) (x y : Int) : CollisionRows :=
  fun r => if r = y then rows y ||| (1 <<< jsShiftAmt x) else rows r

/-- Source: `function SquareFixedAt(x, y) { return _collisionRows[y] & (1 << x); }`
(the numeric result is used for its JS truthiness: nonzero = fixed). -/
def SquareFixedAt (rows : CollisionRows) (x y : Int) : Bool :=
  (rows y &&& (1 <<< jsShiftAmt x)) != 0

/-- Source: `function UnfixSquareAt(x, y) { _collisionRows[y] = _collisionRows[y] & (1 << x); }`
Note the source ANDs with the mask itself, not with its complement. -/
def UnfixSquareAt (rows : CollisionRows) (x y : Int) : CollisionRows :=
  fun r => if r = y then rows y &&& (1 <<< jsShiftAmt x) else rows r

/-- A placed/falling square `{ x: .., y: .., color: .. }`. -/
structure Square where
  x : Int
  y : Int
  color : String
deriving DecidableEq, Repr

/-- One cell of a piece matrix: `false` (`none`) or a color string. -/
abbrev Cell := Option String

/-- The active piece `{ x, y, m }`. -/
structure Piece where
  x : Int
  y : Int
  m : List (List Cell)
deriving DecidableEq, Repr

/-- The global mutable game state of `index.js`, gathered into one record. -/
structure GameState where
  placedSquares : List Square
  fallingSquares : List Square
  collisionRows : CollisionRows
  activePiece : Option Piece
  pieceInPlay : Bool
  gameInPlay : Bool
  gamePaused : Bool

/-- The occupied cells of a piece in board coordinates, in the row-major order
the source's nested `for`/`forEach` loops visit them: for each matrix entry
`m[i][j]` that is truthy (not `false` and not the empty string), the cell
`(piece.x + j, piece.y + i)` with its color. -/
def occupiedCells (p : Piece) : List (Int × Int × String) :=
  (p.m.enum.map (fun ir =>
    ir.2.enum.filterMap (fun jb =>
      match jb.2 with
      | none => none
      | some c => if c = "" then none
                  else some (p.x + (jb.1 : Int), p.y + (ir.1 : Int), c)))).flatten

/-- Build the `{x, y, color}` square pushed for an occupied cell. -/
def mkSquare (c : Int × Int × String) : Square := ⟨c.1, c.2.1, c.2.2⟩

/-- Source: `function SetGameOver() { _gameInPlay = false; }` -/
def SetGameOver (s : GameState) : GameState := { s with gameInPlay := false }

/-- The offset applied in `SpawnNewPiece`:
`piece.x += Math.round(_boardWidth/2)-2` (10/2 = 5 exactly, so round is 5). -/
def spawnOffset : Int := _boardWidth / 2 - 2

/-- The generated piece after the spawn offset, `{ gen with x := gen.x + 3 }`. -/
def offsetPiece (gen : Piece) : Piece := { gen with x := gen.x + spawnOffset }

/-- Source: `function SpawnNewPiece()`, with the randomly generated piece
passed explicitly.  Returns the new state and the source's boolean result. -/
def SpawnNewPiece (s : GameState) (gen : Piece) : GameState × Bool :=
  let piece := offsetPiece gen
  if (occupiedCells piece).any (fun c => SquareFixedAt s.collisionRows c.1 c.2.1) then
    (s, false)
  else
    ({ s with activePiece := some piece, pieceInPlay := true }, true)

/-- The blocked-check loop of `ProcessGravity`: some occupied cell `(x, y)` has
`y > _boardHeight-2 || SquareFixedAt(x, y+1)` (breaking early is equivalent). -/
def pieceBlocked (rows : CollisionRows) (p : Piece) : Bool :=
  (occupiedCells p).any (fun c =>
    decide (c.2.1 > _boardHeight - 2) || SquareFixedAt rows c.1 (c.2.1 + 1))

/-- One iteration of the `_fallingSquares.forEach` in `ProcessGravity`: let a
square fall if it stays on the board and the cell below is free, else fix it.
Accumulator: (collision rows, the `stillFalling` list). -/
def fallStep (acc : CollisionRows × List Square) (b : Square) :
    CollisionRows × List Square :=
  if b.y < _boardHeight - 1 && !SquareFixedAt acc.1 b.x (b.y + 1) then
    (acc.1, acc.2 ++ [{ b with y := b.y + 1 }])
  else
    (FixSquareAt acc.1 b.x b.y, acc.2)

/-- The trailing loop of `ProcessGravity`: step every square of
`_fallingSquares` down when possible, otherwise fix its bit; the collision
rows are read and written as the loop runs. -/
def stepFalling (s : GameState) : GameState :=
  let acc := s.fallingSquares.foldl fallStep (s.collisionRows, [])
  { s with collisionRows := acc.1, fallingSquares := acc.2 }

/-- One iteration of the landing `forEach` in `ProcessGravity`: fix the cell's
bit and push the new square onto `_placedSquares`. -/
def landStep (acc : CollisionRows × List Square) (c : Int × Int × String) :
    CollisionRows × List Square :=
  (FixSquareAt acc.1 c.1 c.2.1, acc.2 ++ [mkSquare c])

/-- Source: `function ProcessGravity()`.  The source dereferences
`_activePiece.m`, so a missing active piece is a crash, modelled as `none`. -/
def ProcessGravity (s : GameState) : Option GameState :=
  match s.activePiece with
  | none => none
  | some p =>
    let s1 :=
      if !pieceBlocked s.collisionRows p then
        { s with activePiece := some { p with y := p.y + 1 } }
      else
        let acc := (occupiedCells p).foldl landStep (s.collisionRows, s.placedSquares)
        { s with collisionRows := acc.1, placedSquares := acc.2,
                 activePiece := none, pieceInPlay := false }
    some (stepFalling s1)

/-- One iteration of the `_placedSquares.forEach` in `RemoveRow`: skip squares
of the deleted row; otherwise keep the square, unfix it, and push it onto the
falling list.  Accumulator: (newBoard, collision rows, falling squares). -/
def removeRowStep (rowIndex : Int) (acc : List Square × CollisionRows × List Square)
    (b : Square) : List Square × CollisionRows × List Square :=
  if b.y == rowIndex then acc
  else (acc.1 ++ [b], UnfixSquareAt acc.2.1 b.x b.y, acc.2.2 ++ [b])

/-- Source: `function RemoveRow(rowIndex)`. -/
def RemoveRow (s : GameState) (rowIndex : Int) : GameState :=
  let rows0 : CollisionRows := fun r => if r = rowIndex then 0 else s.collisionRows r
  let acc := s.placedSquares.foldl (removeRowStep rowIndex) ([], rows0, s.fallingSquares)
  { s with placedSquares := acc.1, collisionRows := acc.2.1, fallingSquares := acc.2.2 }

/-- Body of the scan loop in `CheckForRowsCleared` at row `i`. -/
def scanStep (s : GameState) (i : Int) : GameState :=
  if s.collisionRows i == _fullRowVal then RemoveRow s i else s

/-- The `for (var i = 0; i < _boardHeight; i++)` loop of `CheckForRowsCleared`,
running `count` iterations starting at row `i`. -/
def scanFrom (s : GameState) (i : Nat) : Nat → GameState
  | 0 => s
  | k + 1 => scanFrom (scanStep s (i : Int)) (i + 1) k

/-- Source: `function CheckForRowsCleared()`. -/
def CheckForRowsCleared (s : GameState) : GameState := scanFrom s 0 22

/-- Source: `function MovePieceSideways(moveLeft)`.  The early `return` on the
first blocked cell aborts the whole move, so blockedness is an `any` over the
occupied cells; note the source's unparenthesised conditions consult
`SquareFixedAt(x-1, y)` and `SquareFixedAt(x+1, y)` regardless of direction. -/
def MovePieceSideways (s : GameState) (moveLeft : Bool) : GameState :=
  match s.activePiece with
  | none => s
  | some p =>
    let blocked := (occupiedCells p).any (fun c =>
      ((moveLeft && decide (c.1 = 0)) || SquareFixedAt s.collisionRows (c.1 - 1) c.2.1)
      || ((!moveLeft && decide (c.1 = _boardWidth - 1))
          || SquareFixedAt s.collisionRows (c.1 + 1) c.2.1))
    if blocked then s
    else { s with activePiece := some { p with x := p.x + (if moveLeft then -1 else 1) } }

/-- Matrix entry access `m[i][j]`, with the JS out-of-range read
(`undefined`, falsy) modelled as the empty cell. -/
def mget (m : List (List Cell)) (i j : Nat) : Cell := (m.getD i []).getD j none

/-- Source: `function RotatePiece(m)`. -/
def RotatePiece (m : List (List Cell)) : List (List Cell) :=
  if m.length == 4 then
    [[mget m 3 0, mget m 2 0, mget m 1 0, mget m 0 0],
     [mget m 3 1, mget m 2 1, mget m 1 1, mget m 0 1],
     [mget m 3 2, mget m 2 2, mget m 1 2, mget m 0 2],
     [mget m 3 3, mget m 2 3, mget m 1 3, mget m 0 3]]
  else
    [[mget m 2 0, mget m 1 0, mget m 0 0],
     [mget m 2 1, mget m 1 1, mget m 0 1],
     [mget m 2 2, mget m 1 2, mget m 0 2]]

/-- The `'ArrowUp'` case of `HandleKeyInput`: rotate the active piece, guarded
by `if (!_activePiece) return`. -/
def HandleRotate (s : GameState) : GameState :=
  match s.activePiece with
  | none => s
  | some p => { s with activePiece := some { p with m := RotatePiece p.m } }

/-- The piece-selection index of `GenerateNewPiece`:
`Math.round(Math.random()*(pieceTypes.length-1))` with the draw `r ∈ [0,1)`
made explicit; JS `Math.round x = ⌊x + 1/2⌋` for nonnegative `x`. -/
def pieceSelectIndex (r : ℚ) : Int := ⌊r * 6 + 1 / 2⌋

/-- Source: `function GameLoop()`, with the piece `GenerateNewPiece` would
produce passed explicitly; `none` models the crash when gravity runs with no
piece available. -/
def GameLoop (s : GameState) (gen : Piece) : Option GameState :=
  if s.gamePaused then some s
  else
    let r := if s.pieceInPlay then (s, true) else SpawnNewPiece s gen
    if !r.2 then some (SetGameOver r.1)
    else (ProcessGravity r.1).map CheckForRowsCleared

/-- Row `i` has been cleared: mask zero and no fixed square left on it. -/
def rowCleared (i : Int) (s : GameState) : Prop :=
  s.collisionRows i = 0 ∧ ∀ b ∈ s.placedSquares, b.y ≠ i

/-- The descent condition as the spec states it: every occupied cell `(x, y)`
of the piece has `y + 1` on the board (not past the bottom row
`boardHeight - 1`) and the cell below it free. -/
def canDescend (rows : CollisionRows) (p : Piece) : Prop :=
  ∀ c ∈ occupiedCells p,
    c.2.1 + 1 ≤ _boardHeight - 1 ∧ SquareFixedAt rows c.1 (c.2.1 + 1) = false

/-! ## Definitions: concrete states for counterexamples and witnesses -/

/-- A state with no active piece (as between a landing and the next spawn). -/
def stateNoPiece : GameState :=
  { placedSquares := [⟨0, 21, "red"⟩], fallingSquares := [],
    collisionRows := fun r => if r = 21 then 1 else 0,
    activePiece := none, pieceInPlay := false, gameInPlay := true, gamePaused := false }

/-- A single-cell active piece at column 5, row 5. -/
def pieceC5 : Piece := { x := 5, y := 5, m := [[some ("purple")]] }

/-- Board with one fixed square at (4, 5) — to the LEFT of `pieceC5` — and the
matching collision bit; everything to the piece's right is free. -/
def stateC5 : GameState :=
  { placedSquares := [⟨4, 5, "red"⟩], fallingSquares := [],
    collisionRows := fun r => if r = 5 then 2 ^ 4 else 0,
    activePiece := some pieceC5, pieceInPlay := true, gameInPlay := true, gamePaused := false }

/-- Ten squares filling row `y`. -/
def rowOfSquares (y : Int) (color : String) : List Square :=
  (List.range 10).map (fun c => ⟨(c : Int), y, color⟩)

/-- A consistent board: squares at (0,0) and (1,0) with bits 0,1 of row 0 set,
and a completely full row 2. -/
def stateC1 : GameState :=
  { placedSquares := [⟨0, 0, "red"⟩, ⟨1, 0, "blue"⟩] ++ rowOfSquares 2 "gray",
    fallingSquares := [],
    collisionRows := fun r => if r = 0 then 3 else if r = 2 then _fullRowVal else 0,
    activePiece := none, pieceInPlay := false, gameInPlay := true, gamePaused := false }

/-- A board with one square above and one below row 1: (0,0) and (0,2), with
the matching bits set. -/
def stateC3 : GameState :=
  { placedSquares := [⟨0, 0, "red"⟩, ⟨0, 2, "blue"⟩], fallingSquares := [],
    collisionRows := fun r => if r = 0 then 1 else if r = 2 then 1 else 0,
    activePiece := none, pieceInPlay := false, gameInPlay := true, gamePaused := false }

/-- Two simultaneously full rows 0 and 1, with all twenty squares placed. -/
def stateC7 : GameState :=
  { placedSquares := rowOfSquares 0 "gray" ++ rowOfSquares 1 "gray",
    fallingSquares := [],
    collisionRows := fun r => if r = 0 then _fullRowVal else if r = 1 then _fullRowVal else 0,
    activePiece := none, pieceInPlay := false, gameInPlay := true, gamePaused := false }

/-- A single full row 5 (given by its mask) and its ten placed squares. -/
def stateC7w : GameState :=
  { placedSquares := rowOfSquares 5 "gray", fallingSquares := [],
    collisionRows := fun r => if r = 5 then _fullRowVal else 0,
    activePiece := none, pieceInPlay := false, gameInPlay := true, gamePaused := false }

/-- An empty board with no piece. -/
def stateEmpty : GameState :=
  { placedSquares := [], fallingSquares := [], collisionRows := fun _ => 0,
    activePiece := none, pieceInPlay := false, gameInPlay := true, gamePaused := false }

/-- A single-cell piece at the origin. -/
def pieceC4 : Piece := { x := 0, y := 0, m := [[some ("cyan")]] }

/-- Empty board with `pieceC4` as the active piece. -/
def stateC4w : GameState :=
  { stateEmpty with activePiece := some pieceC4, pieceInPlay := true }

/-- A 1-cell generated piece; the spawn offset puts its cell at (3, 0). -/
def genPieceW : Piece := { x := 0, y := 0, m := [[some ("cyan")]] }

/-- A board whose spawn cell (3, 0) is occupied by a fixed square. -/
def stateBlockedSpawn : GameState :=
  { placedSquares := [⟨3, 0, "red"⟩], fallingSquares := [],
    collisionRows := fun r => if r = 0 then 2 ^ 3 else 0,
    activePiece := none, pieceInPlay := false, gameInPlay := true, gamePaused := false }

/-! ## Helper lemmas about the bitmask operations -/

theorem sfa_testBit (rows : CollisionRows) (x y : Int) :
    SquareFixedAt rows x y = (rows y).testBit (jsShiftAmt x) := by
  unfold SquareFixedAt
  rw [Nat.one_shiftLeft, Nat.and_two_pow]
  cases h : (rows y).testBit (jsShiftAmt x) with
  | false => simp
  | true => simp [(Nat.two_pow_pos (jsShiftAmt x)).ne']

theorem fix_sets (rows : CollisionRows) (x y : Int) :
    SquareFixedAt (FixSquareAt rows x y) x y = true := by
  rw [sfa_testBit]
  unfold FixSquareAt
  simp [Nat.one_shiftLeft, Nat.testBit_lor, Nat.testBit_two_pow_self]

theorem fix_preserves (rows : CollisionRows) (a b x y : Int)
    (h : SquareFixedAt rows x y = true) :
    SquareFixedAt (FixSquareAt rows a b) x y = true := by
  rw [sfa_testBit] at h ⊢
  unfold FixSquareAt
  by_cases hy : y = b
  · subst hy
    simp [Nat.testBit_lor, h]
  · simp [hy, h]

theorem unfix_testBit_le (rows : CollisionRows) (x y r : Int) (c : Nat)
    (h : (UnfixSquareAt rows x y r).testBit c = true) : (rows r).testBit c = true := by
  unfold UnfixSquareAt at h
  by_cases hr : r = y
  · subst hr
    rw [if_pos rfl, Nat.testBit_land, Bool.and_eq_true] at h
    exact h.1
  · rwa [if_neg hr] at h

/-! ## Helper lemmas about the folds in `RemoveRow` -/

theorem removeRow_fold_spec (rowIndex : Int) (l : List Square)
    (acc : List Square × CollisionRows × List Square) :
    (l.foldl (removeRowStep rowIndex) acc).1
        = acc.1 ++ l.filter (fun b => !(b.y == rowIndex)) ∧
    (l.foldl (removeRowStep rowIndex) acc).2.2
        = acc.2.2 ++ l.filter (fun b => !(b.y == rowIndex)) ∧
    ∀ r c, ((l.foldl (removeRowStep rowIndex) acc).2.1 r).testBit c = true →
      (acc.2.1 r).testBit c = true := by
  induction l generalizing acc with
  | nil => simp
  | cons b t ih =>
    rw [List.foldl_cons, removeRowStep]
    cases hb : (b.y == rowIndex) with
    | true =>
      rw [if_pos rfl, List.filter_cons_of_neg (by simp [hb])]
      exact ih acc
    | false =>
      rw [if_neg (by simp), List.filter_cons_of_pos (by simp [hb])]
      have h := ih (acc.1 ++ [b], UnfixSquareAt acc.2.1 b.x b.y, acc.2.2 ++ [b])
      refine ⟨?_, ?_, ?_⟩
      · rw [h.1]; simp
      · rw [h.2.1]; simp
      · intro r c hc
        exact unfix_testBit_le acc.2.1 b.x b.y r c (h.2.2 r c hc)

theorem RemoveRow_placed (s : GameState) (y : Int) :
    (RemoveRow s y).placedSquares = s.placedSquares.filter (fun b => !(b.y == y)) := by
  have h := (removeRow_fold_spec y s.placedSquares
    ([], (fun r => if r = y then 0 else s.collisionRows r), s.fallingSquares)).1
  simpa [RemoveRow] using h

theorem RemoveRow_falling (s : GameState) (y : Int) :
    (RemoveRow s y).fallingSquares
      = s.fallingSquares ++ s.placedSquares.filter (fun b => !(b.y == y)) := by
  have h := (removeRow_fold_spec y s.placedSquares
    ([], (fun r => if r = y then 0 else s.collisionRows r), s.fallingSquares)).2.1
  simpa [RemoveRow] using h

theorem RemoveRow_testBit (s : GameState) (y : Int) (r : Int) (c : Nat)
    (h : ((RemoveRow s y).collisionRows r).testBit c = true) :
    r ≠ y ∧ (s.collisionRows r).testBit c = true := by
  have h2 := (removeRow_fold_spec y s.placedSquares
    ([], (fun r => if r = y then 0 else s.collisionRows r), s.fallingSquares)).2.2 r c
    (by simpa [RemoveRow] using h)
  dsimp only at h2
  by_cases hr : r = y
  · rw [if_pos hr] at h2
    simp at h2
  · rw [if_neg hr] at h2
    exact ⟨hr, h2⟩

theorem RemoveRow_row_zero (s : GameState) (y : Int) :
    (RemoveRow s y).collisionRows y = 0 := by
  apply Nat.eq_of_testBit_eq
  intro c
  rw [Nat.zero_testBit]
  cases hc : ((RemoveRow s y).collisionRows y).testBit c with
  | false => rfl
  | true => exact absurd rfl (RemoveRow_testBit s y y c hc).1

/-! ## Helper lemmas about the scan in `CheckForRowsCleared` -/

theorem scanFrom_add (s : GameState) (i a b : Nat) :
    scanFrom s i (a + b) = scanFrom (scanFrom s i a) (i + a) b := by
  induction a generalizing s i with
  | zero =>
    rw [Nat.zero_add, Nat.add_zero]
    rfl
  | succ k ih =>
    rw [Nat.succ_add, scanFrom, ih]
    congr 1
    omega

theorem rowCleared_removeRow (i : Int) (s : GameState) (j : Int)
    (h : rowCleared i s) : rowCleared i (RemoveRow s j) := by
  constructor
  · apply Nat.eq_of_testBit_eq
    intro c
    rw [Nat.zero_testBit]
    cases hc : ((RemoveRow s j).collisionRows i).testBit c with
    | false => rfl
    | true =>
      have hcontra := (RemoveRow_testBit s j i c hc).2
      rw [h.1, Nat.zero_testBit] at hcontra
      exact hcontra.symm
  · intro b hb
    rw [RemoveRow_placed] at hb
    exact h.2 b (List.mem_of_mem_filter hb)

theorem rowCleared_clears_own (i : Int) (s : GameState) :
    rowCleared i (RemoveRow s i) := by
  constructor
  · exact RemoveRow_row_zero s i
  · intro b hb
    rw [RemoveRow_placed] at hb
    have := List.of_mem_filter hb
    simpa using this

theorem rowCleared_scanStep (i : Int) (s : GameState) (j : Int)
    (h : rowCleared i s) : rowCleared i (scanStep s j) := by
  unfold scanStep
  split
  · exact rowCleared_removeRow i s j h
  · exact h

theorem rowCleared_scanFrom (i : Int) (s : GameState) (j k : Nat)
    (h : rowCleared i s) : rowCleared i (scanFrom s j k) := by
  induction k generalizing s j with
  | zero => exact h
  | succ n ih => exact ih (scanStep s (j : Int)) (j + 1) (rowCleared_scanStep i s (j : Int) h)

/-! ## Helper lemmas about the folds in `ProcessGravity` -/

theorem land_fold_placed (l : List (Int × Int × String))
    (acc : CollisionRows × List Square) :
    (l.foldl landStep acc).2 = acc.2 ++ l.map mkSquare := by
  induction l generalizing acc with
  | nil => simp
  | cons c t ih =>
    rw [List.foldl_cons, List.map_cons, landStep]
    rw [ih]
    simp

theorem land_fold_preserves (l : List (Int × Int × String))
    (acc : CollisionRows × List Square) (x y : Int)
    (h : SquareFixedAt acc.1 x y = true) :
    SquareFixedAt (l.foldl landStep acc).1 x y = true := by
  induction l generalizing acc with
  | nil => exact h
  | cons c t ih =>
    rw [List.foldl_cons, landStep]
    exact ih _ (fix_preserves acc.1 c.1 c.2.1 x y h)

theorem land_fold_sets (l : List (Int × Int × String))
    (acc : CollisionRows × List Square) :
    ∀ c ∈ l, SquareFixedAt (l.foldl landStep acc).1 c.1 c.2.1 = true := by
  induction l generalizing acc with
  | nil =>
    intro c hc
    cases hc
  | cons d t ih =>
    intro c hc
    rw [List.foldl_cons]
    cases List.mem_cons.mp hc with
    | inl hd =>
      subst hd
      exact land_fold_preserves t _ c.1 c.2.1 (by rw [landStep]; exact fix_sets acc.1 c.1 c.2.1)
    | inr ht => exact ih _ c ht

theorem fall_fold_preserves (l : List Square) (acc : CollisionRows × List Square)
    (x y : Int) (h : SquareFixedAt acc.1 x y = true) :
    SquareFixedAt (l.foldl fallStep acc).1 x y = true := by
  induction l generalizing acc with
  | nil => exact h
  | cons b t ih =>
    rw [List.foldl_cons, fallStep]
    split
    · exact ih _ h
    · exact ih _ (fix_preserves acc.1 b.x b.y x y h)

theorem stepFalling_preserves_fixed (s : GameState) (x y : Int)
    (h : SquareFixedAt s.collisionRows x y = true) :
    SquareFixedAt (stepFalling s).collisionRows x y = true := by
  unfold stepFalling
  exact fall_fold_preserves s.fallingSquares (s.collisionRows, []) x y h

theorem canDescend_iff_not_blocked (rows : CollisionRows) (p : Piece) :
    pieceBlocked rows p = false ↔ canDescend rows p := by
  unfold pieceBlocked canDescend
  rw [List.any_eq_false]
  constructor
  · intro hall c hc
    have h := hall c hc
    simp only [Bool.or_eq_true, decide_eq_true_eq, not_or, Bool.not_eq_true] at h
    exact ⟨by omega, h.2⟩
  · intro hall c hc
    have h := hall c hc
    simp only [Bool.or_eq_true, decide_eq_true_eq, not_or, Bool.not_eq_true]
    exact ⟨by omega, h.2⟩

theorem ProcessGravity_eq (s : GameState) (p : Piece) (h : s.activePiece = some p) :
    ProcessGravity s = some (stepFalling (
      if !pieceBlocked s.collisionRows p then
        { s with activePiece := some { p with y := p.y + 1 } }
      else
        let acc := (occupiedCells p).foldl landStep (s.collisionRows, s.placedSquares)
        { s with collisionRows := acc.1, placedSquares := acc.2,
                 activePiece := none, pieceInPlay := false })) := by
  unfold ProcessGravity
  rw [h]

/-! ## The claims -/

/-- C1 (code_bug evaluation): `stateC1` is consistent (bit (0,0) set, exactly
one fixed square there) and its row 2 is full; after the row-clear scan the
square at (0,0) is still in the fixed set but its collision bit is gone, so
the consistency invariant is not preserved by the release operation. -/
theorem c1_invariant_destroyed_by_row_clear :
    SquareFixedAt stateC1.collisionRows 0 0 = true ∧
    ((CheckForRowsCleared stateC1).placedSquares.any
      (fun b => b.x == 0 && b.y == 0)) = true ∧
    SquareFixedAt (CheckForRowsCleared stateC1).collisionRows 0 0 = false := by
  refine ⟨by decide, ?_, ?_⟩ <;> decide

/-- C2 (code_bug evaluation): fixing (3,5) and then unfixing (3,5) leaves
`SquareFixedAt (3,5)` TRUE — `UnfixSquareAt` ANDs the row with the very mask
`1 << x` instead of its complement, so the bit is never cleared and the claim
"after unfix(x,y), isFixed(x,y) returns false" fails. -/
theorem c2_unfix_leaves_bit_set :
    SquareFixedAt (UnfixSquareAt (FixSquareAt (fun _ => 0) 3 5) 3 5) 3 5 = true := by
  decide

/-- C3 counterexample: releasing row 1 of `stateC3` puts the square at (0,2) —
strictly BELOW the released row — into the falling list, and the square at
(0,0) above the row keeps its collision bit (the buggy unfix does not clear
it), refuting both the "squares below are unchanged" and the "bit cleared"
parts of the claim. -/
theorem c3_counterexample :
    ((RemoveRow stateC3 1).fallingSquares.any (fun b => b.y == 2)) = true ∧
    SquareFixedAt (RemoveRow stateC3 1).collisionRows 0 0 = true := by
  constructor <;> decide

/-- C3 amended: `releaseRow(y)` removes the squares of row y from the fixed
set and zeroes row y's bitmask, but it transfers EVERY other fixed square —
above or below row y — into the falling list while also keeping it in the
fixed set, and the unfix it performs only ANDs each square's row mask with
that square's own bit, so collision bits are merely never gained (they are
not reliably cleared). -/
theorem c3_remove_row_behavior (s : GameState) (y : Int) :
    (RemoveRow s y).collisionRows y = 0 ∧
    (RemoveRow s y).placedSquares = s.placedSquares.filter (fun b => !(b.y == y)) ∧
    (RemoveRow s y).fallingSquares
      = s.fallingSquares ++ s.placedSquares.filter (fun b => !(b.y == y)) ∧
    (∀ r c, ((RemoveRow s y).collisionRows r).testBit c = true →
      (s.collisionRows r).testBit c = true) := by
  refine ⟨RemoveRow_row_zero s y, RemoveRow_placed s y, RemoveRow_falling s y, ?_⟩
  intro r c hc
  exact (RemoveRow_testBit s y r c hc).2

/-- Witness for C3's amended theorem at `stateC3`, row 1. -/
theorem c3_remove_row_behavior_witness :
    (RemoveRow stateC3 1).collisionRows 1 = 0 ∧
    Nat.testBit (stateC3.collisionRows 0) 0 = true :=
  ⟨(c3_remove_row_behavior stateC3 1).1,
   (c3_remove_row_behavior stateC3 1).2.2.2 0 0 (by decide)⟩

/-- C4: with an active piece, one gravity step either moves the piece down by
exactly one row — precisely when every occupied cell has the cell below it on
the board and unfixed — or, otherwise, lands it: each occupied cell becomes a
fixed square in the placed set with its collision bit set, and the controller
is left with no piece in play. -/
theorem c4_gravity_step (s : GameState) (p : Piece) (h : s.activePiece = some p) :
    (canDescend s.collisionRows p →
      ∃ s', ProcessGravity s = some s' ∧
        s'.activePiece = some { p with y := p.y + 1 } ∧
        s'.pieceInPlay = s.pieceInPlay ∧ s'.placedSquares = s.placedSquares) ∧
    (¬canDescend s.collisionRows p →
      ∃ s', ProcessGravity s = some s' ∧ s'.activePiece = none ∧ s'.pieceInPlay = false ∧
        ∀ c ∈ occupiedCells p, mkSquare c ∈ s'.placedSquares ∧
          SquareFixedAt s'.collisionRows c.1 c.2.1 = true) := by
  constructor
  · intro hcan
    have hpb : pieceBlocked s.collisionRows p = false :=
      (canDescend_iff_not_blocked s.collisionRows p).mpr hcan
    refine ⟨stepFalling { s with activePiece := some { p with y := p.y + 1 } },
      ?_, rfl, rfl, rfl⟩
    rw [ProcessGravity_eq s p h, hpb, Bool.not_false, if_pos rfl]
  · intro hcan
    have hpb : pieceBlocked s.collisionRows p = true := by
      cases hb : pieceBlocked s.collisionRows p with
      | false => exact absurd ((canDescend_iff_not_blocked s.collisionRows p).mp hb) hcan
      | true => rfl
    refine ⟨stepFalling
      { s with
        collisionRows := ((occupiedCells p).foldl landStep (s.collisionRows, s.placedSquares)).1,
        placedSquares := ((occupiedCells p).foldl landStep (s.collisionRows, s.placedSquares)).2,
        activePiece := none, pieceInPlay := false }, ?_, rfl, rfl, ?_⟩
    · rw [ProcessGravity_eq s p h, hpb, Bool.not_true, if_neg (by simp)]
    · intro c hc
      constructor
      · show mkSquare c ∈ ((occupiedCells p).foldl landStep (s.collisionRows, s.placedSquares)).2
        rw [land_fold_placed]
        exact List.mem_append_right _ (List.mem_map_of_mem mkSquare hc)
      · exact stepFalling_preserves_fixed _ c.1 c.2.1
          (land_fold_sets (occupiedCells p) (s.collisionRows, s.placedSquares) c hc)

/-- Witness for C4: on an empty board the piece descends one row. -/
theorem c4_gravity_step_witness :
    ∃ s', ProcessGravity stateC4w = some s' ∧
      s'.activePiece = some { pieceC4 with y := pieceC4.y + 1 } ∧
      s'.pieceInPlay = stateC4w.pieceInPlay ∧ s'.placedSquares = stateC4w.placedSquares :=
  (c4_gravity_step stateC4w pieceC4 rfl).1 (by unfold canDescend; decide)

/-- C5 (code_bug evaluation): at `stateC5` the cell to the RIGHT of the piece,
(6,5), is free and the piece is not at the right wall, yet `MovePieceSideways`
toward the right leaves the state unchanged: the unparenthesised condition
`moveLeft && x == 0 || SquareFixedAt(x-1, y)` consults the square on the LEFT
even for a rightward move. -/
theorem c5_right_move_blocked_by_left_square :
    SquareFixedAt stateC5.collisionRows 6 5 = false ∧
    (5 : Int) ≠ _boardWidth - 1 ∧
    MovePieceSideways stateC5 false = stateC5 :=
  ⟨by decide, by decide, rfl⟩

/-- C6: spawning succeeds exactly when no occupied cell of the horizontally
offset piece overlaps a fixed square; on success that offset piece becomes
the active piece; on a failed spawn the game loop transitions to the Over
state (`gameInPlay = false`) with every other component of the state — in
particular the board — unchanged. -/
theorem c6_spawn_iff_no_overlap (s : GameState) (gen : Piece) :
    ((SpawnNewPiece s gen).2 = true ↔
      ∀ c ∈ occupiedCells (offsetPiece gen),
        SquareFixedAt s.collisionRows c.1 c.2.1 = false) ∧
    ((SpawnNewPiece s gen).2 = true →
      (SpawnNewPiece s gen).1.activePiece = some (offsetPiece gen) ∧
      (SpawnNewPiece s gen).1.pieceInPlay = true) ∧
    (s.gamePaused = false → s.pieceInPlay = false → (SpawnNewPiece s gen).2 = false →
      GameLoop s gen = some { s with gameInPlay := false }) := by
  cases hany : (occupiedCells (offsetPiece gen)).any
      (fun c => SquareFixedAt s.collisionRows c.1 c.2.1) with
  | false =>
    have hs : SpawnNewPiece s gen
        = ({ s with activePiece := some (offsetPiece gen), pieceInPlay := true }, true) := by
      unfold SpawnNewPiece
      rw [if_neg (by simp [hany])]
    rw [List.any_eq_false] at hany
    refine ⟨?_, ?_, ?_⟩
    · rw [hs]
      simp only [true_iff]
      intro c hc
      simpa using hany c hc
    · intro _
      rw [hs]
      exact ⟨rfl, rfl⟩
    · intro _ _ hfail
      rw [hs] at hfail
      simp at hfail
  | true =>
    have hs : SpawnNewPiece s gen = (s, false) := by
      unfold SpawnNewPiece
      rw [if_pos hany]
    obtain ⟨c, hc, hfix⟩ := List.any_eq_true.mp hany
    refine ⟨?_, ?_, ?_⟩
    · rw [hs]
      constructor
      · intro hok
        simp at hok
      · intro hall
        exact absurd (hall c hc) (by simp [hfix])
    · intro hok
      rw [hs] at hok
      simp at hok
    · intro hp hpi _
      unfold GameLoop
      rw [hp, hpi, hs]
      simp [SetGameOver]
      exact ⟨hpi, hp⟩

/-- Witness for C6: a successful spawn on the empty board installs the offset
piece, and the blocked spawn makes the game loop go to game over. -/
theorem c6_spawn_iff_no_overlap_witness :
    ((SpawnNewPiece stateEmpty genPieceW).1.activePiece = some (offsetPiece genPieceW) ∧
     (SpawnNewPiece stateEmpty genPieceW).1.pieceInPlay = true) ∧
    GameLoop stateBlockedSpawn genPieceW
      = some { stateBlockedSpawn with gameInPlay := false } :=
  ⟨(c6_spawn_iff_no_overlap stateEmpty genPieceW).2.1 (by decide),
   (c6_spawn_iff_no_overlap stateBlockedSpawn genPieceW).2.2 rfl rfl (by decide)⟩

/-- C7 counterexample: rows 0 and 1 of `stateC7` both have the full bitmask
when the scan begins, yet after one `CheckForRowsCleared` pass the squares of
row 1 are still in the fixed set — clearing row 0 corrupted row 1's mask
mid-scan, so the scan skipped it. -/
theorem c7_counterexample :
    stateC7.collisionRows 0 = _fullRowVal ∧
    stateC7.collisionRows 1 = _fullRowVal ∧
    ((CheckForRowsCleared stateC7).placedSquares.any (fun b => b.y == 1)) = true := by
  refine ⟨rfl, rfl, ?_⟩
  decide

/-- C7 amended: a single `CheckForRowsCleared` pass clears every row whose
collision bitmask equals `2^boardWidth - 1` at the moment the scan REACHES
that row (not at the moment the scan begins): such a row ends with bitmask 0
and none of its squares left in the fixed set.  A row full at scan start can
be spoiled by an earlier clear in the same pass and is then skipped. -/
theorem c7_scan_clears_row_full_when_reached (s : GameState) (i : Nat) (hi : i < 22)
    (hfull : (scanFrom s 0 i).collisionRows (i : Int) = _fullRowVal) :
    (CheckForRowsCleared s).collisionRows (i : Int) = 0 ∧
    ∀ b ∈ (CheckForRowsCleared s).placedSquares, b.y ≠ (i : Int) := by
  have h22 : (22 : Nat) = i + (22 - i) := by omega
  have hk : 22 - i = (22 - i - 1) + 1 := by omega
  unfold CheckForRowsCleared
  rw [h22, scanFrom_add, hk, scanFrom, Nat.zero_add]
  have hstep : scanStep (scanFrom s 0 i) (i : Int) = RemoveRow (scanFrom s 0 i) (i : Int) := by
    unfold scanStep
    rw [if_pos (by simp [hfull])]
  rw [hstep]
  exact rowCleared_scanFrom (i : Int) _ (i + 1) (22 - i - 1)
    (rowCleared_clears_own (i : Int) (scanFrom s 0 i))

/-- Witness for C7's amended theorem: row 5 of `stateC7w` is full when the
scan reaches it and ends cleared. -/
theorem c7_scan_clears_row_full_when_reached_witness :
    (CheckForRowsCleared stateC7w).collisionRows ((5 : Nat) : Int) = 0 ∧
    ∀ b ∈ (CheckForRowsCleared stateC7w).placedSquares, b.y ≠ ((5 : Nat) : Int) :=
  c7_scan_clears_row_full_when_reached stateC7w 5 (by decide) (by decide)

/-- C8: rotating any 3×3 piece matrix four times returns the original matrix,
and two rotations give the 180-degree rotation. -/
theorem c8_rotate_four_times_id (a b c d e f g h i : Cell) :
    RotatePiece (RotatePiece (RotatePiece (RotatePiece [[a,b,c],[d,e,f],[g,h,i]]))) =
      [[a,b,c],[d,e,f],[g,h,i]] ∧
    RotatePiece (RotatePiece [[a,b,c],[d,e,f],[g,h,i]]) = [[i,h,g],[f,e,d],[c,b,a]] :=
  ⟨rfl, rfl⟩

/-- C9 (code_bug evaluation): under a uniform draw `r ∈ [0, 1)`, the source's
index `Math.round(r * 6)` selects shape 0 exactly on `[0, 1/12)` but shape 1
exactly on `[1/12, 1/4)` — intervals of measure 1/12 versus 1/6 — so the seven
shapes are not chosen with equal probability 1/7. -/
theorem c9_selection_not_uniform :
    (∀ r : ℚ, 0 ≤ r → r < 1 → (pieceSelectIndex r = 0 ↔ r < 1 / 12)) ∧
    (∀ r : ℚ, 0 ≤ r → r < 1 → (pieceSelectIndex r = 1 ↔ 1 / 12 ≤ r ∧ r < 1 / 4)) := by
  constructor
  · intro r h0 h1
    unfold pieceSelectIndex
    rw [Int.floor_eq_iff]
    push_cast
    constructor
    · intro h
      linarith [h.2]
    · intro h
      constructor <;> linarith
  · intro r h0 h1
    unfold pieceSelectIndex
    rw [Int.floor_eq_iff]
    push_cast
    constructor
    · intro h
      exact ⟨by linarith [h.1], by linarith [h.2]⟩
    · intro h
      constructor <;> linarith [h.1, h.2]

/-- Witness for C9 at r = 0 and r = 1/8. -/
theorem c9_selection_not_uniform_witness :
    (pieceSelectIndex 0 = 0 ↔ (0 : ℚ) < 1 / 12) ∧
    (pieceSelectIndex (1 / 8) = 1 ↔ (1 : ℚ) / 12 ≤ 1 / 8 ∧ (1 : ℚ) / 8 < 1 / 4) :=
  ⟨c9_selection_not_uniform.1 0 (by norm_num) (by norm_num),
   c9_selection_not_uniform.2 (1 / 8) (by norm_num) (by norm_num)⟩

/-- C10: with no active piece, sideways moves (either direction) and rotation
return the game state entirely unchanged. -/
theorem c10_input_noop_without_piece (s : GameState) (h : s.activePiece = none) :
    MovePieceSideways s true = s ∧ MovePieceSideways s false = s ∧ HandleRotate s = s := by
  unfold MovePieceSideways HandleRotate
  rw [h]
  exact ⟨rfl, rfl, rfl⟩

/-- Witness for C10 at a concrete state. -/
theorem c10_input_noop_without_piece_witness :
    MovePieceSideways stateNoPiece true = stateNoPiece ∧
    MovePieceSideways stateNoPiece false = stateNoPiece ∧
    HandleRotate stateNoPiece = stateNoPiece :=
  c10_input_noop_without_piece stateNoPiece rfl
